import Mathlib

/-!
Shallow embedding of `src/app.py` (AgriImpact Insight): a SQLite-backed
event/attendee store with frequency-count reporting, a Markdown table
renderer and a CSV exporter.

The database state is modelled explicitly: the two table schemas (as
optional lists of column names, `none` meaning the table does not exist)
and the stored rows.  SQLite's `INTEGER PRIMARY KEY AUTOINCREMENT` is
modelled by a monotonically increasing next-id counter per table, starting
at 1, never reused.  The fallible `ALTER TABLE ... RENAME COLUMN`
statement of `init_db` is modelled by a boolean parameter saying whether
the statement succeeds; the surrounding `try/except: pass` is the
`if renameOk` branch.  Python's `csv.DictWriter` (excel dialect) is
modelled field-for-field: minimal quoting of fields containing a comma,
a double quote or a CR/LF character, `\r\n` as the line terminator, a
`ValueError` (modelled as `Except.error`) when a row dict contains a key
outside the writer's fieldnames, and `restval` of the empty string for
missing keys.  `collections.Counter` over an iterable is modelled as a
fold over an association list that keeps first-seen key order, matching
dict insertion order.
-/

namespace AgriImpact

/-- A row of the `events` table (id, title, event_date, location, topic). -/
structure Event where
  id : Nat
  title : String
  event_date : String
  location : String
  topic : String
deriving Repr, DecidableEq

/-- A row of the `attendees` table (id, event_id, name, gender, province). -/
structure Attendee where
  id : Nat
  event_id : Nat
  name : String
  gender : String
  province : String
deriving Repr, DecidableEq

/-- The derived join projection returned by `get_attendance_data`. -/
structure AttendanceRecord where
  event_title : String
  event_date : String
  gender : String
  province : String
deriving Repr, DecidableEq

/-- The whole database state: the two table schemas (column-name lists,
`none` = table absent) plus the stored rows and the AUTOINCREMENT
counters. -/
structure DB where
  eventsCols : Option (List String)
  attendeesCols : Option (List String)
  events : List Event
  attendees : List Attendee
  nextEventId : Nat
  nextAttendeeId : Nat
deriving Repr, DecidableEq

/-- Column names created by `CREATE TABLE IF NOT EXISTS events (...)`. -/
def defaultEventsCols : List String := ["id", "title", "event_date", "location", "topic"]

/-- Column names created by `CREATE TABLE IF NOT EXISTS attendees (...)`. -/
def defaultAttendeesCols : List String := ["id", "event_id", "name", "gender", "province"]

/-- Effect of `ALTER TABLE events RENAME COLUMN date TO event_date` on the
column list. -/
def renameDateCol (cols : List String) : List String :=
  cols.map (fun c => if c = "date" then "event_date" else c)

/-- `init_db` from `src/app.py`, lines 12-55.  Creates the two tables if
absent, then — when the events table has a `date` column and no
`event_date` column — attempts the legacy column rename inside
`try/except: pass`.  `renameOk` says whether the `ALTER TABLE` statement
succeeds; the returned boolean records whether it was attempted at all.
Stored rows are untouched. -/
def init_db_run (renameOk : Bool) (db : DB) : DB × Bool :=
  let ecols := db.eventsCols.getD defaultEventsCols
  let acols := db.attendeesCols.getD defaultAttendeesCols
  if "date" ∈ ecols ∧ "event_date" ∉ ecols then
    let ecols' := if renameOk then renameDateCol ecols else ecols
    ({ db with eventsCols := some ecols', attendeesCols := some acols }, true)
  else
    ({ db with eventsCols := some ecols, attendeesCols := some acols }, false)

/-- `init_db`, state part only. -/
def init_db (renameOk : Bool) (db : DB) : DB :=
  (init_db_run renameOk db).1

/-- A blank database file: no tables, no rows. -/
def blankDB : DB :=
  { eventsCols := none, attendeesCols := none, events := [], attendees := [],
    nextEventId := 1, nextAttendeeId := 1 }

/-- The store right after first initialization. -/
def emptyDB : DB := init_db true blankDB

/-- `add_event` from `src/app.py`, lines 57-66: INSERT one event row,
id assigned by AUTOINCREMENT. -/
def add_event (db : DB) (title event_date location : String) (topic : String := "") : DB :=
  { db with
    events := db.events ++ [⟨db.nextEventId, title, event_date, location, topic⟩],
    nextEventId := db.nextEventId + 1 }

/-- `get_events` from `src/app.py`, lines 68-74: SELECT all event rows. -/
def get_events (db : DB) : List Event := db.events

/-- `add_attendee` from `src/app.py`, lines 76-85: INSERT one attendee row.
SQLite does not enforce the foreign key by default (the code never issues
`PRAGMA foreign_keys = ON`), so the insert succeeds for any `event_id`. -/
def add_attendee (db : DB) (event_id : Nat) (name gender : String) (province : String := "") : DB :=
  { db with
    attendees := db.attendees ++ [⟨db.nextAttendeeId, event_id, name, gender, province⟩],
    nextAttendeeId := db.nextAttendeeId + 1 }

/-- `get_attendance_data` from `src/app.py`, lines 87-106: the SQL inner
join `FROM attendees AS a JOIN events AS e ON a.event_id = e.id`,
projecting (title, event_date, gender, province) for every matching pair. -/
def get_attendance_data (db : DB) : List AttendanceRecord :=
  db.attendees.flatMap (fun a =>
    (db.events.filter (fun e => e.id == a.event_id)).map
      (fun e => ⟨e.title, e.event_date, a.gender, a.province⟩))

/-- A Python dict of string fields, as an insertion-ordered association
list (keys of a dict are unique; lookups take the first binding). -/
abbrev Row := List (String × String)

/-- Keys of a record in insertion order (`dict.keys()`). -/
def rowKeys (r : Row) : List String := r.map Prod.fst

/-- Does `csv` (excel dialect, QUOTE_MINIMAL) quote this field?  Yes when
it contains the delimiter, the quotechar, or a line-terminator character. -/
def needsQuoting (s : String) : Bool :=
  s.toList.any (fun c => c = ',' || c = '"' || c = '\r' || c = '\n')

/-- Minimal quoting of one CSV field: wrap in double quotes and double
every embedded double quote, only when required. -/
def quoteField (s : String) : String :=
  if needsQuoting s then
    "\"" ++ String.mk (s.toList.flatMap (fun c => if c = '"' then ['"', '"'] else [c])) ++ "\""
  else s

/-- One physical CSV row: quoted fields joined by commas, terminated by
CRLF (the excel dialect's `lineterminator`, independent of the platform).
A record consisting of a single empty field is written as a quoted empty
string, the csv module's rule that keeps such a record distinguishable
from an empty row. -/
def csvRow (fields : List String) : String :=
  match fields with
  | [s] => (if s = "" then "\"\"" else quoteField s) ++ "\r\n"
  | _ => String.intercalate "," (fields.map quoteField) ++ "\r\n"

/-- `DictWriter._dict_to_list`: raises `ValueError` when the dict has a
key outside `fieldnames` (default `extrasaction='raise'`); missing keys
become the default `restval`, rendered as the empty string. -/
def dictToList (fieldnames : List String) (r : Row) : Except String (List String) :=
  if r.all (fun kv => fieldnames.contains kv.1) then
    .ok (fieldnames.map (fun k => (r.lookup k).getD ""))
  else
    .error "dict contains fields not in fieldnames"

/-- `writer.writerows(data)`: convert each dict in order, propagating the
first `ValueError`. -/
def writeRows (fieldnames : List String) : List Row → Except String (List (List String))
  | [] => .ok []
  | r :: rs => do
    let row ← dictToList fieldnames r
    let rest ← writeRows fieldnames rs
    .ok (row :: rest)

/-- `export_csv` from `src/app.py`, lines 108-117: empty input gives the
empty string; otherwise fieldnames are the first record's keys, then
`writeheader()` and `writerows(data)` into the string buffer. -/
def export_csv (data : List Row) : Except String String :=
  match data with
  | [] => .ok ""
  | r0 :: rest =>
    let fieldnames := rowKeys r0
    match writeRows fieldnames (r0 :: rest) with
    | .error e => .error e
    | .ok rows => .ok (csvRow fieldnames ++ String.join (rows.map csvRow))

/-- One step of `collections.Counter`: bump an existing key in place, or
append a fresh key at the end (dict insertion order). -/
def counterAdd (acc : List (String × Nat)) (k : String) : List (String × Nat) :=
  if acc.any (fun p => p.1 = k) then
    acc.map (fun p => if p.1 = k then (p.1, p.2 + 1) else p)
  else acc ++ [(k, 1)]

/-- `collections.Counter(iterable)` as used in `main` (`src/app.py`,
lines 196-198): an ordered key → count mapping, iteration order =
first-seen order. -/
def counter (l : List String) : List (String × Nat) := l.foldl counterAdd []

/-- The three aggregations of `main`: counts keyed by event title. -/
def events_counts (data : List AttendanceRecord) : List (String × Nat) :=
  counter (data.map (fun r => r.event_title))

/-- Counts keyed by gender. -/
def gender_counts (data : List AttendanceRecord) : List (String × Nat) :=
  counter (data.map (fun r => r.gender))

/-- Counts keyed by province. -/
def province_counts (data : List AttendanceRecord) : List (String × Nat) :=
  counter (data.map (fun r => r.province))

/-- `markdown_table` from `src/app.py`, lines 119-124: header row,
separator row, then one `|key|value|` line per mapping entry appended by
the `for` loop, joined with newlines. -/
def markdown_table (counts : List (String × Nat)) (header1 header2 : String) : String :=
  let lines := counts.foldl
    (fun ls p => ls ++ ["|" ++ p.1 ++ "|" ++ toString p.2 ++ "|"])
    ["|" ++ header1 ++ "|" ++ header2 ++ "|", "|---|---|"]
  String.intercalate "\n" lines

/-- First-seen-order deduplication: the key iteration order a Python dict
(hence `Counter`) exposes. -/
def firstSeenAux (seen : List String) : List String → List String
  | [] => []
  | k :: ks => if k ∈ seen then firstSeenAux seen ks else k :: firstSeenAux (k :: seen) ks

/-- Distinct values of a list in first-seen order. -/
def firstSeen (l : List String) : List String := firstSeenAux [] l

lemma date_not_mem_renameDateCol (cols : List String) : "date" ∉ renameDateCol cols := by
  intro hmem
  rw [renameDateCol, List.mem_map] at hmem
  obtain ⟨c, _, hc⟩ := hmem
  by_cases h : c = "date"
  · rw [if_pos h] at hc
    exact absurd hc (by decide)
  · rw [if_neg h] at hc
    exact h hc

/-- C6: init_db is idempotent: a second call in succession leaves the
database state unchanged, both table schemas exist (exactly one copy of
each, since a schema is a single field), no error is raised (init_db is a
total function), and stored rows are untouched. -/
theorem init_db_idempotent (r : Bool) (db : DB) :
    init_db r (init_db r db) = init_db r db ∧
    (init_db r db).eventsCols.isSome ∧ (init_db r db).attendeesCols.isSome ∧
    (init_db r db).events = db.events ∧ (init_db r db).attendees = db.attendees := by
  by_cases hc : "date" ∈ db.eventsCols.getD defaultEventsCols ∧
      "event_date" ∉ db.eventsCols.getD defaultEventsCols
  · cases r
    · simp [init_db, init_db_run, hc]
    · have h2 : ¬("date" ∈ renameDateCol (db.eventsCols.getD defaultEventsCols) ∧
          "event_date" ∉ renameDateCol (db.eventsCols.getD defaultEventsCols)) := by
        intro h
        exact date_not_mem_renameDateCol _ h.1
      simp [init_db, init_db_run, hc, h2]
  · simp [init_db, init_db_run, hc]

/-- C7: the legacy column rename is attempted exactly when the
(post-creation) events schema has a column named date and none named
event_date; when the ALTER statement fails the failure is swallowed:
initialization still returns normally, with the schema columns left
exactly as they were (tables created if absent) and rows untouched. -/
theorem init_db_rename_spec (r : Bool) (db : DB) :
    ((init_db_run r db).2 = true ↔
      ("date" ∈ db.eventsCols.getD defaultEventsCols ∧
       "event_date" ∉ db.eventsCols.getD defaultEventsCols)) ∧
    (init_db false db).eventsCols = some (db.eventsCols.getD defaultEventsCols) ∧
    (init_db false db).attendeesCols = some (db.attendeesCols.getD defaultAttendeesCols) ∧
    (init_db false db).events = db.events ∧
    (init_db false db).attendees = db.attendees := by
  by_cases hc : "date" ∈ db.eventsCols.getD defaultEventsCols ∧
      "event_date" ∉ db.eventsCols.getD defaultEventsCols
  · simp [init_db, init_db_run, hc]
  · simp [init_db, init_db_run, hc]

/-- C9: no operation updates or deletes events: add_attendee leaves the
events table unchanged, and add_event leaves the attendees table
unchanged and only appends one event row after the existing ones. -/
theorem store_frame (db : DB) (eid : Nat) (n g p t d l tp : String) :
    (add_attendee db eid n g p).events = db.events ∧
    (add_event db t d l tp).attendees = db.attendees ∧
    (add_event db t d l tp).events = db.events ++ [⟨db.nextEventId, t, d, l, tp⟩] :=
  ⟨rfl, rfl, rfl⟩

/-- C8: the store does not validate at its boundary: add_event with an
empty title still inserts the row (SQLite's NOT NULL accepts the empty
string), and add_attendee inserts even when no stored event carries the
referenced id (the code never enables foreign-key enforcement). -/
theorem store_no_validation (db : DB) (d l tp : String) (eid : Nat) (n g p : String) :
    (add_event db "" d l tp).events = db.events ++ [⟨db.nextEventId, "", d, l, tp⟩] ∧
    ((∀ e ∈ db.events, e.id ≠ eid) →
      (add_attendee db eid n g p).attendees =
        db.attendees ++ [⟨db.nextAttendeeId, eid, n, g, p⟩]) :=
  ⟨rfl, fun _ => rfl⟩

/-- Witness for C8 at a concrete state: the freshly initialized store, an
empty title, and a dangling event id 5. -/
theorem store_no_validation_witness :
    (add_event emptyDB "" "2024-01-01" "L" "T").events = [⟨1, "", "2024-01-01", "L", "T"⟩] ∧
    (add_attendee emptyDB 5 "N" "F" "P").attendees = [⟨1, 5, "N", "F", "P"⟩] := by
  have h := store_no_validation emptyDB "2024-01-01" "L" "T" 5 "N" "F" "P"
  exact ⟨h.1.trans (by decide), (h.2 (by decide)).trans (by decide)⟩

/-- A batch of `add_event` calls, inputs as (title, event_date, location,
topic) tuples. -/
def addEvents (db : DB) (l : List (String × String × String × String)) : DB :=
  l.foldl (fun d i => add_event d i.1 i.2.1 i.2.2.1 i.2.2.2) db

/-- The event rows a batch starting at id `s` produces. -/
def eventsFrom (s : Nat) : List (String × String × String × String) → List Event
  | [] => []
  | i :: is => ⟨s, i.1, i.2.1, i.2.2.1, i.2.2.2⟩ :: eventsFrom (s + 1) is

lemma addEvents_events (l : List (String × String × String × String)) (db : DB) :
    (addEvents db l).events = db.events ++ eventsFrom db.nextEventId l ∧
    (addEvents db l).nextEventId = db.nextEventId + l.length := by
  induction l generalizing db with
  | nil => simp [addEvents, eventsFrom]
  | cons i is ih =>
    have h := ih (add_event db i.1 i.2.1 i.2.2.1 i.2.2.2)
    refine ⟨?_, ?_⟩
    · show (addEvents (add_event db i.1 i.2.1 i.2.2.1 i.2.2.2) is).events = _
      rw [h.1]
      simp [add_event, eventsFrom]
    · show (addEvents (add_event db i.1 i.2.1 i.2.2.1 i.2.2.2) is).nextEventId = _
      rw [h.2]
      simp [add_event]
      omega

lemma eventsFrom_fields (l : List (String × String × String × String)) (s : Nat) :
    (eventsFrom s l).map (fun e => (e.title, e.event_date, e.location, e.topic)) = l := by
  induction l generalizing s with
  | nil => rfl
  | cons i is ih => simp [eventsFrom, ih]

lemma eventsFrom_ids (l : List (String × String × String × String)) (s : Nat) :
    (eventsFrom s l).map Event.id = List.range' s l.length := by
  induction l generalizing s with
  | nil => rfl
  | cons i is ih => simp [eventsFrom, ih, List.range'_succ]

/-- C5: after any batch of add_event calls on the freshly initialized
store, get_events returns exactly the added events with matching title,
event_date, location and topic, in order, and their ids are 1, 2, ...,
n — pairwise distinct, monotonically increasing, never reused. -/
theorem add_event_get_events_spec (l : List (String × String × String × String)) :
    (get_events (addEvents emptyDB l)).map
        (fun e => (e.title, e.event_date, e.location, e.topic)) = l ∧
    (get_events (addEvents emptyDB l)).map Event.id = List.range' 1 l.length ∧
    ((get_events (addEvents emptyDB l)).map Event.id).Nodup := by
  have hev : (addEvents emptyDB l).events = eventsFrom 1 l := by
    rw [(addEvents_events l emptyDB).1]
    rfl
  refine ⟨?_, ?_, ?_⟩
  · rw [get_events, hev, eventsFrom_fields]
  · rw [get_events, hev, eventsFrom_ids]
  · rw [get_events, hev, eventsFrom_ids]
    apply List.nodup_range'
    exact Nat.zero_lt_one

lemma filter_id_eq_find (events : List Event) (x : Nat)
    (hnd : (events.map Event.id).Nodup) :
    events.filter (fun e => e.id == x) = (events.find? (fun e => e.id == x)).toList := by
  induction events with
  | nil => rfl
  | cons e es ih =>
    rw [List.map_cons, List.nodup_cons] at hnd
    by_cases h : e.id = x
    · have hnil : es.filter (fun e' => e'.id == x) = [] := by
        rw [List.filter_eq_nil_iff]
        intro a ha hax
        rw [beq_iff_eq] at hax
        exact hnd.1 (h ▸ hax ▸ List.mem_map_of_mem Event.id ha)
      simp [List.filter_cons, List.find?, h, hnil]
    · have hb : (e.id == x) = false := by simp [h]
      simp [List.filter_cons, List.find?, hb, ih hnd.2]

lemma flatMap_join_eq_filterMap (atts : List Attendee) (events : List Event)
    (hnd : (events.map Event.id).Nodup) :
    atts.flatMap (fun a =>
        (events.filter (fun e => e.id == a.event_id)).map
          (fun e => (⟨e.title, e.event_date, a.gender, a.province⟩ : AttendanceRecord))) =
      atts.filterMap (fun a =>
        (events.find? (fun e => e.id == a.event_id)).map
          (fun e => (⟨e.title, e.event_date, a.gender, a.province⟩ : AttendanceRecord))) := by
  induction atts with
  | nil => rfl
  | cons a as ih =>
    rw [List.flatMap_cons, List.filterMap_cons, filter_id_eq_find events a.event_id hnd, ih]
    cases events.find? (fun e => e.id == a.event_id) with
    | none => rfl
    | some e => rfl

/-- C2: get_attendance_data is the inner join of attendees to events on
event id.  With the store's invariant that event ids are unique: (1) the
result is one record per attendee whose event_id resolves, projecting the
parent event's title/date with the attendee's gender/province; (2) every
matching (attendee, event) pair contributes its projected record; (3) an
event with zero attendees contributes no rows at all. -/
theorem attendance_join_spec (db : DB) (hnd : (db.events.map Event.id).Nodup) :
    (get_attendance_data db =
      db.attendees.filterMap (fun a =>
        (db.events.find? (fun e => e.id == a.event_id)).map
          (fun e => ⟨e.title, e.event_date, a.gender, a.province⟩))) ∧
    (∀ a ∈ db.attendees, ∀ e ∈ db.events, e.id = a.event_id →
      (⟨e.title, e.event_date, a.gender, a.province⟩ : AttendanceRecord) ∈
        get_attendance_data db) ∧
    (∀ ecols acols nid naid (pre post : List Event) (ev : Event) (atts : List Attendee),
      (∀ a ∈ atts, a.event_id ≠ ev.id) →
      get_attendance_data ⟨ecols, acols, pre ++ ev :: post, atts, nid, naid⟩ =
        get_attendance_data ⟨ecols, acols, pre ++ post, atts, nid, naid⟩) := by
  refine ⟨flatMap_join_eq_filterMap db.attendees db.events hnd, ?_, ?_⟩
  · intro a ha e he hid
    rw [get_attendance_data, List.mem_flatMap]
    refine ⟨a, ha, ?_⟩
    rw [List.mem_map]
    refine ⟨e, ?_, rfl⟩
    rw [List.mem_filter]
    exact ⟨he, by simp [hid]⟩
  · intro ecols acols nid naid pre post ev atts h
    show atts.flatMap _ = atts.flatMap _
    induction atts with
    | nil => rfl
    | cons a as ih =>
      have h1 : a.event_id ≠ ev.id := h a (List.mem_cons_self a as)
      have hne : (ev.id == a.event_id) = false := by
        rw [beq_eq_false_iff_ne]
        exact fun he => h1 he.symm
      rw [List.flatMap_cons, List.flatMap_cons,
        ih (fun a' ha' => h a' (List.mem_cons_of_mem a ha'))]
      congr 1
      rw [List.filter_append, List.filter_append, List.filter_cons, hne]
      simp

/-- A concrete store with one event (id 1) and one attendee referencing
it. -/
def sampleDB : DB :=
  { eventsCols := some defaultEventsCols, attendeesCols := some defaultAttendeesCols,
    events := [⟨1, "T", "2024-01-01", "L", "tp"⟩],
    attendees := [⟨1, 1, "N", "F", "P"⟩],
    nextEventId := 2, nextAttendeeId := 2 }

/-- Witness for C2 at a concrete store: one event with id 1 and one
attendee referencing it; the projected record is in the report. -/
theorem attendance_join_spec_witness :
    (⟨"T", "2024-01-01", "F", "P"⟩ : AttendanceRecord) ∈ get_attendance_data sampleDB :=
  (attendance_join_spec sampleDB (by decide)).2.1
    ⟨1, 1, "N", "F", "P"⟩ (by decide) ⟨1, "T", "2024-01-01", "L", "tp"⟩ (by decide) rfl

lemma any_fst_eq (acc : List (String × Nat)) (k : String) :
    acc.any (fun p => p.1 = k) = true ↔ k ∈ acc.map Prod.fst := by
  rw [List.any_eq_true]
  constructor
  · rintro ⟨p, hp, hpk⟩
    rw [decide_eq_true_eq] at hpk
    exact hpk ▸ List.mem_map_of_mem Prod.fst hp
  · intro hk
    rw [List.mem_map] at hk
    obtain ⟨p, hp, hpk⟩ := hk
    exact ⟨p, hp, by simp [hpk]⟩

lemma counterAdd_fst (acc : List (String × Nat)) (k : String) :
    (counterAdd acc k).map Prod.fst =
      if acc.any (fun p => p.1 = k) then acc.map Prod.fst else acc.map Prod.fst ++ [k] := by
  unfold counterAdd
  split_ifs with h
  · rw [List.map_map]
    apply List.map_congr_left
    intro p _
    by_cases hp : p.1 = k <;> simp [hp]
  · simp

lemma firstSeenAux_congr (ks : List String) (s1 s2 : List String)
    (h : ∀ x, x ∈ s1 ↔ x ∈ s2) : firstSeenAux s1 ks = firstSeenAux s2 ks := by
  induction ks generalizing s1 s2 with
  | nil => rfl
  | cons k ks ih =>
    rw [firstSeenAux, firstSeenAux]
    by_cases hk : k ∈ s1
    · rw [if_pos hk, if_pos ((h k).mp hk)]
      exact ih s1 s2 h
    · rw [if_neg hk, if_neg (fun hx => hk ((h k).mpr hx))]
      congr 1
      apply ih
      intro x
      simp [List.mem_cons, h x]

lemma counter_keys_aux (l : List String) (acc : List (String × Nat)) :
    (l.foldl counterAdd acc).map Prod.fst =
      acc.map Prod.fst ++ firstSeenAux (acc.map Prod.fst) l := by
  induction l generalizing acc with
  | nil => simp [firstSeenAux]
  | cons k ks ih =>
    rw [List.foldl_cons, ih (counterAdd acc k), counterAdd_fst]
    by_cases h : acc.any (fun p => p.1 = k) = true
    · rw [if_pos h, firstSeenAux, if_pos ((any_fst_eq acc k).mp h)]
    · have hk : k ∉ acc.map Prod.fst := fun hm => h ((any_fst_eq acc k).mpr hm)
      rw [if_neg h, firstSeenAux, if_neg hk,
        firstSeenAux_congr ks (acc.map Prod.fst ++ [k]) (k :: acc.map Prod.fst)
          (by intro x; simp [List.mem_cons, or_comm])]
      simp

lemma lookup_cons {β : Type} (pk : String) (pv : β) (acc : List (String × β)) (x : String) :
    ((pk, pv) :: acc).lookup x = if x = pk then some pv else acc.lookup x := by
  by_cases h : x = pk
  · simp [List.lookup, h]
  · have hb : (x == pk) = false := by simp [h]
    simp [List.lookup, hb, h]

lemma lookup_incr (acc : List (String × Nat)) (k x : String) :
    (acc.map (fun p => if p.1 = k then (p.1, p.2 + 1) else p)).lookup x =
      if x = k then (acc.lookup x).map (· + 1) else acc.lookup x := by
  induction acc with
  | nil => by_cases h : x = k <;> simp [h, List.lookup]
  | cons p acc ih =>
    obtain ⟨pk, pv⟩ := p
    simp only [List.map_cons]
    by_cases hpk : pk = k
    · rw [if_pos hpk, lookup_cons, lookup_cons]
      by_cases hx : x = pk
      · simp [hx, hpk, hx.trans hpk]
      · have hxk : ¬x = k := fun hc => hx (hc.trans hpk.symm)
        simp [hx, hxk, ih]
    · rw [if_neg hpk, lookup_cons, lookup_cons]
      by_cases hx : x = pk
      · have hxk : ¬x = k := fun hc => hpk (hx.symm.trans hc)
        simp [hx, hxk, hpk]
      · simp [hx, ih]

lemma lookup_append_of_some (acc l2 : List (String × Nat)) (x : String) (c : Nat)
    (h : acc.lookup x = some c) : (acc ++ l2).lookup x = some c := by
  induction acc with
  | nil => exact absurd h (by simp [List.lookup])
  | cons p acc ih =>
    obtain ⟨pk, pv⟩ := p
    rw [lookup_cons] at h
    rw [List.cons_append, lookup_cons]
    by_cases hx : x = pk
    · rw [if_pos hx] at h ⊢
      exact h
    · rw [if_neg hx] at h ⊢
      exact ih h

lemma lookup_append_of_none (acc l2 : List (String × Nat)) (x : String)
    (h : acc.lookup x = none) : (acc ++ l2).lookup x = l2.lookup x := by
  induction acc with
  | nil => rfl
  | cons p acc ih =>
    obtain ⟨pk, pv⟩ := p
    rw [lookup_cons] at h
    rw [List.cons_append, lookup_cons]
    by_cases hx : x = pk
    · rw [if_pos hx] at h
      exact absurd h (by simp)
    · rw [if_neg hx] at h
      rw [if_neg hx]
      exact ih h

lemma lookup_isSome_iff (acc : List (String × Nat)) (k : String) :
    (acc.lookup k).isSome ↔ k ∈ acc.map Prod.fst := by
  induction acc with
  | nil => simp [List.lookup]
  | cons p acc ih =>
    obtain ⟨pk, pv⟩ := p
    rw [lookup_cons]
    by_cases h : k = pk
    · simp [h]
    · simp [h, ih]

lemma counter_lookup_aux (l : List String) (acc : List (String × Nat)) (x : String) :
    (l.foldl counterAdd acc).lookup x =
      if (acc.lookup x).isSome = true ∨ x ∈ l then
        some ((acc.lookup x).getD 0 + l.count x)
      else none := by
  induction l generalizing acc with
  | nil => cases hl : acc.lookup x <;> simp [hl]
  | cons k ks ih =>
    rw [List.foldl_cons, ih (counterAdd acc k)]
    by_cases hany : acc.any (fun p => p.1 = k) = true
    · have h1 : counterAdd acc k = acc.map (fun p => if p.1 = k then (p.1, p.2 + 1) else p) := by
        unfold counterAdd
        rw [if_pos hany]
      rw [h1, lookup_incr]
      by_cases hx : x = k
      · rw [hx, if_pos rfl]
        have hsome : (acc.lookup k).isSome := by
          rw [lookup_isSome_iff]
          exact (any_fst_eq acc k).mp hany
        obtain ⟨c, hc⟩ := Option.isSome_iff_exists.mp hsome
        rw [hc]
        simp [List.count_cons_self]
        omega
      · rw [if_neg hx, List.count_cons_of_ne hx]
        simp only [List.mem_cons, hx, false_or]
    · have hnone : acc.lookup k = none := by
        cases hl : acc.lookup k with
        | none => rfl
        | some c =>
          exact absurd ((any_fst_eq acc k).mpr ((lookup_isSome_iff acc k).mp (by simp [hl])))
            hany
      have happ : counterAdd acc k = acc ++ [(k, 1)] := by
        unfold counterAdd
        rw [if_neg hany]
      rw [happ]
      by_cases hx : x = k
      · rw [hx, lookup_append_of_none acc [(k, 1)] k hnone, lookup_cons, if_pos rfl, hnone]
        simp [List.count_cons_self]
        omega
      · have hlx : (acc ++ [(k, 1)]).lookup x = acc.lookup x := by
          cases hl : acc.lookup x with
          | none =>
            rw [lookup_append_of_none acc [(k, 1)] x hl, lookup_cons, if_neg hx]
            rfl
          | some c => exact lookup_append_of_some acc [(k, 1)] x c hl
        rw [hlx, List.count_cons_of_ne hx]
        simp only [List.mem_cons, hx, false_or]

lemma firstSeenAux_replicate (m : Nat) (v : String) (s : List String) (hv : v ∈ s) :
    firstSeenAux s (List.replicate m v) = [] := by
  induction m with
  | zero => rfl
  | succ m ih => rw [List.replicate_succ, firstSeenAux, if_pos hv, ih]

/-- C3: the frequency count realised by Counter: the empty sequence gives
the empty mapping; n > 0 occurrences of a single value v give exactly
the mapping with sole entry (v, n); key iteration order is first-seen
order of the input; and each key maps to its number of occurrences,
absent keys to nothing. -/
theorem counter_spec :
    counter [] = [] ∧
    (∀ (v : String) (n : Nat), 0 < n → counter (List.replicate n v) = [(v, n)]) ∧
    (∀ l : List String, (counter l).map Prod.fst = firstSeen l) ∧
    (∀ (l : List String) (k : String),
      (counter l).lookup k = if k ∈ l then some (l.count k) else none) := by
  have hkeys : ∀ l : List String, (counter l).map Prod.fst = firstSeen l := by
    intro l
    rw [counter, counter_keys_aux l [], firstSeen]
    rfl
  have hlookup : ∀ (l : List String) (k : String),
      (counter l).lookup k = if k ∈ l then some (l.count k) else none := by
    intro l k
    rw [counter, counter_lookup_aux l [] k]
    simp [List.lookup]
  refine ⟨rfl, ?_, hkeys, hlookup⟩
  intro v n hn
  obtain ⟨m, rfl⟩ := Nat.exists_eq_succ_of_ne_zero (Nat.pos_iff_ne_zero.mp hn)
  have hk : (counter (List.replicate (m + 1) v)).map Prod.fst = [v] := by
    rw [hkeys, firstSeen, List.replicate_succ, firstSeenAux,
      if_neg (List.not_mem_nil v), firstSeenAux_replicate m v [v] (List.mem_singleton.mpr rfl)]
  have hlk := hlookup (List.replicate (m + 1) v) v
  rw [if_pos (List.mem_replicate.mpr ⟨Nat.succ_ne_zero m, rfl⟩), List.count_replicate_self] at hlk
  cases hcl : counter (List.replicate (m + 1) v) with
  | nil => rw [hcl] at hk; exact absurd hk (by simp)
  | cons p t =>
    rw [hcl] at hk hlk
    rw [List.map_cons] at hk
    have hp1 : p.1 = v := (List.cons_eq_cons.mp hk).1
    have ht : t = [] := List.map_eq_nil_iff.mp (List.cons_eq_cons.mp hk).2
    subst ht
    rw [List.lookup, hp1, beq_self_eq_true] at hlk
    have hp2 : p.2 = m + 1 := Option.some.inj hlk
    rw [show p = (v, m + 1) from Prod.ext hp1 hp2]

/-- Witness for C3: three occurrences of a single value give that value
with count 3. -/
theorem counter_spec_witness : counter (List.replicate 3 "v") = [("v", 3)] :=
  counter_spec.2.1 "v" 3 (by decide)

lemma foldl_append_map {α β : Type} (l : List α) (init : List β) (f : α → β) :
    l.foldl (fun ls p => ls ++ [f p]) init = init ++ l.map f := by
  induction l generalizing init with
  | nil => simp
  | cons p ps ih => simp [ih]

/-- C4: markdown_table is exactly the header row, the separator row, and
one pipe-delimited row per mapping entry in iteration order; at the
spec's concrete input it yields the four expected lines. -/
theorem markdown_table_spec :
    (∀ (counts : List (String × Nat)) (h1 h2 : String),
      markdown_table counts h1 h2 =
        String.intercalate "\n"
          (("|" ++ h1 ++ "|" ++ h2 ++ "|") :: "|---|---|" ::
            counts.map (fun p => "|" ++ p.1 ++ "|" ++ toString p.2 ++ "|"))) ∧
    markdown_table [("X", 3), ("Y", 1)] "Event" "Count" =
      "|Event|Count|" ++ "\n" ++ "|---|---|" ++ "\n" ++ "|X|3|" ++ "\n" ++ "|Y|1|" := by
  constructor
  · intro counts h1 h2
    rw [markdown_table, foldl_append_map]
    rfl
  · rfl

lemma writeRows_ok (fn : List String) (l : List Row)
    (h : ∀ r ∈ l, ∀ kv ∈ r, kv.1 ∈ fn) :
    writeRows fn l = .ok (l.map (fun r => fn.map (fun k => (r.lookup k).getD ""))) := by
  induction l with
  | nil => rfl
  | cons r rs ih =>
    have hr : r.all (fun kv => fn.contains kv.1) = true := by
      rw [List.all_eq_true]
      intro kv hkv
      exact List.elem_eq_true_of_mem (h r (List.mem_cons_self r rs) kv hkv)
    rw [writeRows, dictToList, if_pos hr, ih (fun r' hr' => h r' (List.mem_cons_of_mem r hr'))]
    rfl

/-- C1 (amended): export_csv of the empty list is exactly the empty
string; for non-empty uniform input the output is the header row built
from the first record's keys in that record's field order, followed by
one data row per record in input order, every field passed through the
minimal-quoting rule of quoteField (a record that is a single empty
field becoming a quoted empty string), every row (the last included)
terminated by CRLF; at the concrete inputs the result is the header line
a,b then 1,2 with CRLF terminators, and a single empty value yields a
quoted empty field. -/
theorem export_csv_spec :
    export_csv [] = .ok "" ∧
    export_csv [[("a", "1"), ("b", "2")]] =
      .ok ("a,b" ++ "\r\n" ++ "1,2" ++ "\r\n") ∧
    export_csv [[("a", "")]] = .ok ("a" ++ "\r\n" ++ "\"\"" ++ "\r\n") ∧
    (∀ (r0 : Row) (rest : List Row),
      (∀ r ∈ r0 :: rest, ∀ kv ∈ r, kv.1 ∈ rowKeys r0) →
      export_csv (r0 :: rest) =
        .ok (csvRow (rowKeys r0) ++
          String.join ((r0 :: rest).map
            (fun r => csvRow ((rowKeys r0).map (fun k => (r.lookup k).getD "")))))) := by
  refine ⟨rfl, rfl, rfl, ?_⟩
  intro r0 rest h
  rw [export_csv, writeRows_ok (rowKeys r0) (r0 :: rest) h]
  simp [List.map_map, Function.comp_def]

/-- Witness for C1's amended theorem at a concrete one-record input. -/
theorem export_csv_spec_witness :
    export_csv [[("a", "1")]] =
      .ok (csvRow (rowKeys [("a", "1")]) ++
        String.join ([[("a", "1")]].map
          (fun r => csvRow ((rowKeys [("a", "1")]).map (fun k => (r.lookup k).getD ""))))) :=
  export_csv_spec.2.2.2 [("a", "1")] [] (by decide)

/-- Counterexample for C1 as stated: the line terminator is always CRLF
(the csv module's excel dialect), not the platform line terminator; on a
platform whose terminator is a bare newline the claimed output is wrong,
with or without a trailing terminator. -/
theorem export_csv_crlf_counterexample :
    export_csv [[("a", "1"), ("b", "2")]] = .ok "a,b\r\n1,2\r\n" ∧
    export_csv [[("a", "1"), ("b", "2")]] ≠ .ok "a,b\n1,2\n" ∧
    export_csv [[("a", "1"), ("b", "2")]] ≠ .ok "a,b\n1,2" := by
  refine ⟨rfl, ?_, ?_⟩ <;>
    · intro h
      rw [show export_csv [[("a", "1"), ("b", "2")]] = .ok "a,b\r\n1,2\r\n" from rfl] at h
      exact absurd (Except.ok.inj h) (by decide)

lemma writeRows_error_of_extra (fn : List String) (l : List Row)
    (h : ∃ r ∈ l, ∃ kv ∈ r, kv.1 ∉ fn) :
    ∃ msg, writeRows fn l = .error msg := by
  induction l with
  | nil => exact absurd h (by simp)
  | cons r rs ih =>
    by_cases hr : r.all (fun kv => fn.contains kv.1) = true
    · obtain ⟨r', hr', kv, hkv, hnot⟩ := h
      rcases List.mem_cons.mp hr' with heq | htail
      · subst heq
        rw [List.all_eq_true] at hr
        exact absurd (List.mem_of_elem_eq_true (hr kv hkv)) hnot
      · obtain ⟨msg, hmsg⟩ := ih ⟨r', htail, kv, hkv, hnot⟩
        refine ⟨msg, ?_⟩
        rw [writeRows, dictToList, if_pos hr, hmsg]
        rfl
    · refine ⟨"dict contains fields not in fieldnames", ?_⟩
      rw [writeRows, dictToList, if_neg hr]
      rfl

/-- C10 (amended): a record after the first containing a key absent from
the first record's key set makes export_csv fail with an error instead of
returning CSV text (DictWriter's extrasaction is raise); records whose
keys are merely a subset of the first's do not fail. -/
theorem export_csv_extra_key_error (r0 : Row) (rest : List Row) (r : Row)
    (hr : r ∈ rest) (hk : ∃ kv ∈ r, kv.1 ∉ rowKeys r0) :
    ∃ msg, export_csv (r0 :: rest) = .error msg := by
  obtain ⟨msg, hw⟩ :=
    writeRows_error_of_extra (rowKeys r0) (r0 :: rest) ⟨r, List.mem_cons_of_mem r0 hr, hk⟩
  refine ⟨msg, ?_⟩
  rw [export_csv, hw]

/-- Witness for C10's amended theorem: the second record's key b is not
among the first record's keys, so the export fails. -/
theorem export_csv_extra_key_error_witness :
    ∃ msg, export_csv [[("a", "1")], [("b", "2")]] = .error msg :=
  export_csv_extra_key_error [("a", "1")] [[("b", "2")]] [("b", "2")]
    (by decide) ⟨("b", "2"), by decide, by decide⟩

/-- Counterexample for C10 as stated: a non-empty list whose second
record is not uniform with the first (its key set lacks b) does NOT make
export_csv raise — the missing field is rendered empty and the call
returns CSV text, so equal key sets are not a precondition for success. -/
theorem export_csv_nonuniform_counterexample :
    export_csv [[("a", "1"), ("b", "2")], [("a", "3")]] = .ok "a,b\r\n1,2\r\n3,\r\n" ∧
    ¬∃ msg, export_csv [[("a", "1"), ("b", "2")], [("a", "3")]] = Except.error msg := by
  refine ⟨rfl, ?_⟩
  rintro ⟨msg, hm⟩
  rw [show export_csv [[("a", "1"), ("b", "2")], [("a", "3")]] = .ok "a,b\r\n1,2\r\n3,\r\n"
    from rfl] at hm
  exact Except.noConfusion hm

end AgriImpact

